import Mathlib

/-!
Verification development for the BluePulse demo dashboard.

The main embedded component is the `MLTraining` training-simulation
scheduler (class `MLTraining` in the source): a cooperative periodic
driver with a boolean training flag (`isTraining`), an interval handle
(`trainingInterval`, modelled as the boolean `intervalActive` since only
its nullness is ever inspected), a monotone epoch counter
(`currentEpoch`), a target (`totalEpochs`, default 100) and two
metric buffers (`accuracy`, `loss`) seeded from the model table
(we embed the `otolith` model, the constructor default).  JavaScript
floating-point values are embedded as rationals; `Math.random()` draws
are passed in explicitly as rational parameters.

The forecast partitioner of the rolling time-series engine is embedded
from `OceanographicModule.createForecastChart`, whose JavaScript source
is carried inside src/DEPLOYMENT.md after the deployment guide text.
-/

namespace BluePulse

/-- State of the `MLTraining` scheduler.  `intervalActive` models
`trainingInterval !== null`; `completions` counts how many times the
terminal completion path (`completeTraining`) has run. -/
structure TrainState where
  isTraining : Bool
  intervalActive : Bool
  currentEpoch : Nat
  totalEpochs : Nat
  completions : Nat
  accuracy : List ℚ
  loss : List ℚ
deriving Repr, DecidableEq

/-- Seed accuracy history of the default (`otolith`) model. -/
def otolithAccuracy : List ℚ :=
  [2/10, 4/10, 6/10, 75/100, 82/100, 88/100, 91/100, 942/1000]

/-- Seed loss history of the default (`otolith`) model. -/
def otolithLoss : List ℚ :=
  [21/10, 18/10, 14/10, 11/10, 8/10, 6/10, 4/10, 32/100]

/-- Constructor state of `MLTraining`: not training, no interval,
epoch 0, target 100 epochs, seeded metric buffers. -/
def initState : TrainState :=
  { isTraining := false
    intervalActive := false
    currentEpoch := 0
    totalEpochs := 100
    completions := 0
    accuracy := otolithAccuracy
    loss := otolithLoss }

/-- The new-accuracy computation of `simulateTrainingEpoch`:
`Math.min(0.98, baseAccuracy + (Math.random() - 0.3) * 0.01)`. -/
def newAccuracyCalc (base r : ℚ) : ℚ :=
  min (98/100) (base + (r - 3/10) * (1/100))

/-- The new-loss computation of `simulateTrainingEpoch`:
`Math.max(0.1, baseLoss + (Math.random() - 0.7) * 0.05)`. -/
def newLossCalc (base r : ℚ) : ℚ :=
  max (1/10) (base + (r - 7/10) * (5/100))

/-- Method `startTraining()`: early-returns when `isTraining` is already set;
otherwise sets the flag, resets `currentEpoch` to 0 and installs the
interval. -/
def startTraining (s : TrainState) : TrainState :=
  if s.isTraining then s
  else { s with isTraining := true, currentEpoch := 0, intervalActive := true }

/-- Method `pauseTraining()`: early-returns when not training; otherwise clears
the interval (the `isTraining` flag and the epoch counter are left
untouched). -/
def pauseTraining (s : TrainState) : TrainState :=
  if s.isTraining then { s with intervalActive := false } else s

/-- Method `stopTraining()`: unconditionally clears the training flag and the
interval.  It does not touch `currentEpoch`. -/
def stopTraining (s : TrainState) : TrainState :=
  { s with isTraining := false, intervalActive := false }

/-- Method `completeTraining()`: clears the training flag and the interval and
fires the terminal callback (the completion alert), counted by
`completions`. -/
def completeTraining (s : TrainState) : TrainState :=
  { s with isTraining := false, intervalActive := false
           completions := s.completions + 1 }

/-- Method `simulateTrainingEpoch()`: increments `currentEpoch`, appends one
clamped random-walk sample to each metric buffer (anchored to the
buffer's last element), then runs `completeTraining` once the counter
has reached `totalEpochs`. -/
def simulateTrainingEpoch (s : TrainState) (r1 r2 : ℚ) : TrainState :=
  let s1 : TrainState :=
    { s with currentEpoch := s.currentEpoch + 1
             accuracy := s.accuracy ++ [newAccuracyCalc (s.accuracy.getLastD 0) r1]
             loss := s.loss ++ [newLossCalc (s.loss.getLastD 0) r2] }
  if s1.totalEpochs ≤ s1.currentEpoch then completeTraining s1 else s1

/-- One delivery attempt of the periodic timer: the interval fires
`simulateTrainingEpoch` only while it is installed; once
`clearInterval` has run no further callback is delivered. -/
def deliverTick (s : TrainState) (r1 r2 : ℚ) : TrainState :=
  if s.intervalActive then simulateTrainingEpoch s r1 r2 else s

/-- Drive the scheduler through a sequence of tick deliveries, one
random draw pair per tick. -/
def run (s : TrainState) (rs : List (ℚ × ℚ)) : TrainState :=
  rs.foldl (fun t p => deliverTick t p.1 p.2) s

/-- States reachable from the constructor state by any sequence of
start / pause / stop calls and timer deliveries. -/
inductive Reachable : TrainState → Prop
  | init : Reachable initState
  | start {s : TrainState} : Reachable s → Reachable (startTraining s)
  | pause {s : TrainState} : Reachable s → Reachable (pauseTraining s)
  | stop {s : TrainState} : Reachable s → Reachable (stopTraining s)
  | tick {s : TrainState} (r1 r2 : ℚ) :
      Reachable s → Reachable (deliverTick s r1 r2)

/-- Basic scheduler invariant: a cleared training flag implies the
interval is not installed. -/
def FlagInv (s : TrainState) : Prop :=
  s.isTraining = false → s.intervalActive = false

lemma flagInv_start (s : TrainState) (h : FlagInv s) :
    FlagInv (startTraining s) := by
  unfold FlagInv startTraining
  by_cases ht : s.isTraining
  · simp only [if_pos ht]; exact h
  · simp only [if_neg ht]
    intro hx
    simp at hx

lemma flagInv_pause (s : TrainState) (h : FlagInv s) :
    FlagInv (pauseTraining s) := by
  unfold FlagInv pauseTraining
  by_cases ht : s.isTraining
  · simp only [if_pos ht]
    intro _; simp
  · simp only [if_neg ht]; exact h

lemma flagInv_stop (s : TrainState) :
    FlagInv (stopTraining s) := by
  intro _; rfl

lemma flagInv_tick (s : TrainState) (r1 r2 : ℚ) (h : FlagInv s) :
    FlagInv (deliverTick s r1 r2) := by
  unfold FlagInv deliverTick
  by_cases ha : s.intervalActive
  · simp only [if_pos ha]
    by_cases hc : s.totalEpochs ≤ s.currentEpoch + 1
    · intro _
      simp [simulateTrainingEpoch, completeTraining, hc]
    · intro hf
      have hsf : s.isTraining = false := by
        simpa [simulateTrainingEpoch, hc] using hf
      exact absurd (h hsf) (by simp [ha])
  · simp only [if_neg ha]; exact h

/-- In every reachable state, a cleared training flag implies the
interval is not installed: every path that clears `isTraining` also
clears the interval. -/
lemma reachable_flagInv {s : TrainState} (h : Reachable s) : FlagInv s := by
  induction h with
  | init => intro _; rfl
  | start _ ih => exact flagInv_start _ ih
  | pause _ ih => exact flagInv_pause _ ih
  | stop _ _ => exact flagInv_stop _
  | tick r1 r2 _ ih => exact flagInv_tick _ r1 r2 ih

lemma run_nil (s : TrainState) : run s [] = s := rfl

lemma run_cons (s : TrainState) (p : ℚ × ℚ) (rs : List (ℚ × ℚ)) :
    run s (p :: rs) = run (deliverTick s p.1 p.2) rs := rfl

/-- Once the interval is cleared, timer deliveries change nothing. -/
lemma run_frozen (rs : List (ℚ × ℚ)) : ∀ s : TrainState,
    s.intervalActive = false → run s rs = s := by
  induction rs with
  | nil => intro s _; rfl
  | cons p rs ih =>
      intro s hs
      have hd : deliverTick s p.1 p.2 = s := by simp [deliverTick, hs]
      rw [run_cons, hd]
      exact ih s hs

/-- Behaviour of a running scheduler with target 100 under a sequence of
tick deliveries: below 100 total ticks it keeps running and counts them;
at or past 100 it has completed exactly once and is frozen at epoch
100. -/
lemma run_active (rs : List (ℚ × ℚ)) : ∀ s : TrainState,
    s.totalEpochs = 100 → s.isTraining = true → s.intervalActive = true →
    s.completions = 0 → s.currentEpoch < 100 →
    (s.currentEpoch + rs.length < 100 →
      (run s rs).currentEpoch = s.currentEpoch + rs.length ∧
      (run s rs).completions = 0 ∧
      (run s rs).intervalActive = true ∧
      (run s rs).isTraining = true) ∧
    (100 ≤ s.currentEpoch + rs.length →
      (run s rs).currentEpoch = 100 ∧
      (run s rs).completions = 1 ∧
      (run s rs).intervalActive = false ∧
      (run s rs).isTraining = false) := by
  induction rs with
  | nil =>
      intro s htot htr hint hcomp hlt
      refine ⟨fun _ => ⟨by simp [run_nil], hcomp, hint, htr⟩,
        fun habs => absurd habs (by simp; omega)⟩
  | cons p rs ih =>
      intro s htot htr hint hcomp hlt
      rw [run_cons]
      have hstep : deliverTick s p.1 p.2 = simulateTrainingEpoch s p.1 p.2 := by
        simp [deliverTick, hint]
      by_cases hc : s.totalEpochs ≤ s.currentEpoch + 1
      · have he : s.currentEpoch = 99 := by omega
        have hdone : deliverTick s p.1 p.2 =
            completeTraining
              { s with currentEpoch := s.currentEpoch + 1
                       accuracy := s.accuracy ++
                         [newAccuracyCalc (s.accuracy.getLastD 0) p.1]
                       loss := s.loss ++
                         [newLossCalc (s.loss.getLastD 0) p.2] } := by
          rw [hstep]; simp [simulateTrainingEpoch, hc]
        rw [hdone]
        rw [run_frozen rs _ (by simp [completeTraining])]
        constructor
        · intro habs; exfalso; simp at habs; omega
        · intro _
          refine ⟨by simp [completeTraining]; omega,
            by simp [completeTraining, hcomp], by simp [completeTraining],
            by simp [completeTraining]⟩
      · have hrun : deliverTick s p.1 p.2 =
            { s with currentEpoch := s.currentEpoch + 1
                     accuracy := s.accuracy ++
                       [newAccuracyCalc (s.accuracy.getLastD 0) p.1]
                     loss := s.loss ++
                       [newLossCalc (s.loss.getLastD 0) p.2] } := by
          rw [hstep]; simp [simulateTrainingEpoch, hc]
        rw [hrun]
        have hih := ih
          { s with currentEpoch := s.currentEpoch + 1
                   accuracy := s.accuracy ++
                     [newAccuracyCalc (s.accuracy.getLastD 0) p.1]
                   loss := s.loss ++
                     [newLossCalc (s.loss.getLastD 0) p.2] }
          (by simp [htot]) (by simp [htr]) (by simp [hint])
          (by simp [hcomp]) (by simp; omega)
        constructor
        · intro hlen
          have h1 := hih.1 (by simp at hlen ⊢; omega)
          refine ⟨?_, h1.2.1, h1.2.2.1, h1.2.2.2⟩
          rw [h1.1]; simp; omega
        · intro hlen
          exact hih.2 (by simp at hlen ⊢; omega)

/-- C1: the training-simulation scheduler started with target 100 and
driven one epoch per tick fires the terminal completion callback
exactly once, on the 100th tick, and stays stopped (no further epoch
increments) under any further tick deliveries. -/
theorem epoch100_terminal_callback_once (rs : List (ℚ × ℚ)) :
    (rs.length < 100 →
      (run (startTraining initState) rs).currentEpoch = rs.length ∧
      (run (startTraining initState) rs).completions = 0 ∧
      (run (startTraining initState) rs).intervalActive = true) ∧
    (100 ≤ rs.length →
      (run (startTraining initState) rs).currentEpoch = 100 ∧
      (run (startTraining initState) rs).completions = 1 ∧
      (run (startTraining initState) rs).intervalActive = false ∧
      (run (startTraining initState) rs).isTraining = false) := by
  have h := run_active rs (startTraining initState) rfl rfl rfl rfl
    (by simp [startTraining, initState])
  have he : (startTraining initState).currentEpoch = 0 := rfl
  rw [he] at h
  simp only [Nat.zero_add] at h
  exact ⟨fun hl => ⟨(h.1 hl).1, (h.1 hl).2.1, (h.1 hl).2.2.1⟩, h.2⟩

/-- Witness for C1: after exactly 100 concrete ticks the callback has
fired once, the epoch counter is 100 and the scheduler is stopped. -/
theorem epoch100_terminal_callback_once_witness :
    (run (startTraining initState)
        (List.replicate 100 ((1/2 : ℚ), (1/2 : ℚ)))).currentEpoch = 100 ∧
    (run (startTraining initState)
        (List.replicate 100 ((1/2 : ℚ), (1/2 : ℚ)))).completions = 1 ∧
    (run (startTraining initState)
        (List.replicate 100 ((1/2 : ℚ), (1/2 : ℚ)))).intervalActive = false ∧
    (run (startTraining initState)
        (List.replicate 100 ((1/2 : ℚ), (1/2 : ℚ)))).isTraining = false :=
  (epoch100_terminal_callback_once _).2 (by simp)

/-- C2 counterexample: from the reachable state reached by start, one
tick, then pause, a subsequent `startTraining` leaves the interval
cleared — periodic firing is NOT resumed (the pre-pause epoch count 1
is retained, but the claimed resumption fails). -/
theorem pause_then_start_does_not_resume :
    (startTraining (pauseTraining
        (deliverTick (startTraining initState) (1/2) (1/2)))).intervalActive
      = false ∧
    (startTraining (pauseTraining
        (deliverTick (startTraining initState) (1/2) (1/2)))).currentEpoch
      = 1 := by
  constructor <;> rfl

/-- C2 amended: whenever the training flag is set, `pause` then `start`
leaves the scheduler suspended — `start` is a no-op (the flag is still
set), the epoch counter keeps its pre-pause value and the interval
stays cleared; `stop` then `start`, by contrast, resumes firing with
the counter reset to zero. -/
theorem pause_start_noop_stop_start_resets (s : TrainState)
    (h : s.isTraining = true) :
    startTraining (pauseTraining s) = pauseTraining s ∧
    (pauseTraining s).currentEpoch = s.currentEpoch ∧
    (pauseTraining s).intervalActive = false ∧
    (startTraining (stopTraining s)).currentEpoch = 0 ∧
    (startTraining (stopTraining s)).intervalActive = true := by
  refine ⟨?_, ?_, ?_, ?_, ?_⟩ <;>
    simp [startTraining, pauseTraining, stopTraining, h]

/-- Witness for C2 (amended) at the concrete freshly-started state. -/
theorem pause_start_noop_stop_start_resets_witness :
    startTraining (pauseTraining (startTraining initState)) =
      pauseTraining (startTraining initState) ∧
    (pauseTraining (startTraining initState)).currentEpoch =
      (startTraining initState).currentEpoch ∧
    (pauseTraining (startTraining initState)).intervalActive = false ∧
    (startTraining (stopTraining (startTraining initState))).currentEpoch
      = 0 ∧
    (startTraining (stopTraining (startTraining initState))).intervalActive
      = true :=
  pause_start_noop_stop_start_resets (startTraining initState) rfl

/-- C3 counterexample: after start and one tick, `stopTraining` leaves
the epoch counter at 1 — it is not reset to zero by `stop`. -/
theorem stop_does_not_reset_epoch :
    ¬ ((stopTraining
        (deliverTick (startTraining initState) (1/2) (1/2))).currentEpoch
      = 0) := by
  decide

/-- C3 amended: `stop` suspends firing (clears the flag and the
interval) but leaves the epoch counter unchanged; `pause` suspends
firing and also leaves the counter unchanged; the counter is reset to
zero only at the next `start` (here: start after stop). -/
theorem stop_preserves_counter_pause_preserves_counter (s : TrainState) :
    (stopTraining s).currentEpoch = s.currentEpoch ∧
    (stopTraining s).intervalActive = false ∧
    (stopTraining s).isTraining = false ∧
    (pauseTraining s).currentEpoch = s.currentEpoch ∧
    (s.isTraining = true → (pauseTraining s).intervalActive = false) ∧
    (startTraining (stopTraining s)).currentEpoch = 0 := by
  refine ⟨rfl, rfl, rfl, ?_, ?_, ?_⟩
  · by_cases ht : s.isTraining <;> simp [pauseTraining, ht]
  · intro ht; simp [pauseTraining, ht]
  · simp [startTraining, stopTraining]

/-- Witness for C3 (amended) at the concrete freshly-started state,
discharging the pause hypothesis there. -/
theorem stop_preserves_counter_witness :
    (pauseTraining (startTraining initState)).intervalActive = false ∧
    (stopTraining (startTraining initState)).currentEpoch =
      (startTraining initState).currentEpoch :=
  ⟨(stop_preserves_counter_pause_preserves_counter
      (startTraining initState)).2.2.2.2.1 rfl,
    (stop_preserves_counter_pause_preserves_counter
      (startTraining initState)).1⟩

/-- C4: calling `startTraining` while the training flag is set is a
strict no-op: the state (interval, epoch counter, buffers) is returned
unchanged, so no second tick stream exists and the per-interval effect
stays a single epoch increment. -/
theorem start_noop_when_running (s : TrainState)
    (h : s.isTraining = true) : startTraining s = s := by
  simp [startTraining, h]

/-- Witness for C4 at the concrete freshly-started state. -/
theorem start_noop_when_running_witness :
    startTraining (startTraining initState) = startTraining initState :=
  start_noop_when_running (startTraining initState) rfl

/-- C9: on any reachable state whose training flag is cleared (idle or
stopped), `pause` and `stop` are exact no-ops on the scheduler state:
no counter change, no interval installed or cancelled, no failure. -/
theorem pause_stop_noop_when_not_running (s : TrainState)
    (hr : Reachable s) (h : s.isTraining = false) :
    pauseTraining s = s ∧ stopTraining s = s := by
  have hi : s.intervalActive = false := reachable_flagInv hr h
  constructor
  · simp [pauseTraining, h]
  · cases s
    simp_all [stopTraining]

/-- Witness for C9 at the constructor state, which is reachable and not
training. -/
theorem pause_stop_noop_when_not_running_witness :
    pauseTraining initState = initState ∧ stopTraining initState = initState :=
  pause_stop_noop_when_not_running initState Reachable.init rfl

/-- Iterated metric appends of `simulateTrainingEpoch` on the accuracy
buffer alone: each draw appends `newAccuracyCalc` of the current last
element (`modelData.accuracy.push(newAccuracy)`), with no eviction. -/
def runAccuracy (xs : List ℚ) (rs : List ℚ) : List ℚ :=
  rs.foldl (fun l r => l ++ [newAccuracyCalc (l.getLastD 0) r]) xs

/-- Iterated metric appends on the loss buffer
(`modelData.loss.push(newLoss)`), with no eviction. -/
def runLoss (xs : List ℚ) (rs : List ℚ) : List ℚ :=
  rs.foldl (fun l r => l ++ [newLossCalc (l.getLastD 0) r]) xs

/-- Running the accuracy appends only adds a suffix: the seed is kept
in place, one element is added per draw, and every added element is
clamped to at most 0.98. -/
lemma runAccuracy_eq_append (rs : List ℚ) : ∀ xs : List ℚ,
    ∃ ys : List ℚ, runAccuracy xs rs = xs ++ ys ∧ ys.length = rs.length ∧
      ∀ y ∈ ys, y ≤ 98/100 := by
  induction rs with
  | nil => intro xs; exact ⟨[], by simp [runAccuracy], rfl, by simp⟩
  | cons r rs ih =>
      intro xs
      have hstep : runAccuracy xs (r :: rs) =
          runAccuracy (xs ++ [newAccuracyCalc (xs.getLastD 0) r]) rs := rfl
      obtain ⟨ys, h1, h2, h3⟩ := ih (xs ++ [newAccuracyCalc (xs.getLastD 0) r])
      refine ⟨newAccuracyCalc (xs.getLastD 0) r :: ys, ?_, by simp [h2], ?_⟩
      · rw [hstep, h1]; simp
      · intro y hy
        rcases List.mem_cons.mp hy with h | h
        · rw [h]; exact min_le_left _ _
        · exact h3 y h

/-- Running the loss appends only adds a suffix: the seed is kept in
place, one element is added per draw, and every added element is
clamped to at least 0.1. -/
lemma runLoss_eq_append (rs : List ℚ) : ∀ xs : List ℚ,
    ∃ ys : List ℚ, runLoss xs rs = xs ++ ys ∧ ys.length = rs.length ∧
      ∀ y ∈ ys, 1/10 ≤ y := by
  induction rs with
  | nil => intro xs; exact ⟨[], by simp [runLoss], rfl, by simp⟩
  | cons r rs ih =>
      intro xs
      have hstep : runLoss xs (r :: rs) =
          runLoss (xs ++ [newLossCalc (xs.getLastD 0) r]) rs := rfl
      obtain ⟨ys, h1, h2, h3⟩ := ih (xs ++ [newLossCalc (xs.getLastD 0) r])
      refine ⟨newLossCalc (xs.getLastD 0) r :: ys, ?_, by simp [h2], ?_⟩
      · rw [hstep, h1]; simp
      · intro y hy
        rcases List.mem_cons.mp hy with h | h
        · rw [h]; exact le_max_left _ _
        · exact h3 y h

/-- C5 counterexample: at draw r = 1/2 the value claimed by the spec is
the latest value itself (latest + (1/2 − 1/2)·amp = latest, whatever
amp is), but the code appends min(0.98, latest + (1/2 − 0.3)·0.01); at
the seed latest accuracy 0.942 that is 0.944 ≠ 0.942. -/
theorem tick_perturbation_not_centered :
    newAccuracyCalc (471/500) (1/2) = 118/125 ∧
    ¬ (newAccuracyCalc (471/500) (1/2) = 471/500) := by
  norm_num [newAccuracyCalc, min_def]

/-- C5 amended: each tick appends accuracy
min(0.98, latest + (r − 0.3)·0.01) and loss
max(0.1, latest + (r − 0.7)·0.05): a clamped random walk anchored to the
latest stored value whose perturbations lie in the biased bands
[−0.003, 0.007] and [−0.035, 0.015], not the centered band
[−amp/2, +amp/2]. -/
theorem tick_walk_biased_clamped (base r : ℚ) (h0 : 0 ≤ r) (h1 : r ≤ 1) :
    min (98/100) (base - 3/1000) ≤ newAccuracyCalc base r ∧
    newAccuracyCalc base r ≤ min (98/100) (base + 7/1000) ∧
    max (1/10) (base - 35/1000) ≤ newLossCalc base r ∧
    newLossCalc base r ≤ max (1/10) (base + 15/1000) := by
  unfold newAccuracyCalc newLossCalc
  have ha1 : base - 3/1000 ≤ base + (r - 3/10) * (1/100) := by nlinarith
  have ha2 : base + (r - 3/10) * (1/100) ≤ base + 7/1000 := by nlinarith
  have hl1 : base - 35/1000 ≤ base + (r - 7/10) * (5/100) := by nlinarith
  have hl2 : base + (r - 7/10) * (5/100) ≤ base + 15/1000 := by nlinarith
  exact ⟨min_le_min le_rfl ha1, min_le_min le_rfl ha2,
    max_le_max le_rfl hl1, max_le_max le_rfl hl2⟩

/-- Witness for C5 (amended) at the seed latest accuracy and the middle
draw. -/
theorem tick_walk_biased_clamped_witness :
    min (98/100 : ℚ) (471/500 - 3/1000) ≤ newAccuracyCalc (471/500) (1/2) ∧
    newAccuracyCalc (471/500) (1/2) ≤ min (98/100 : ℚ) (471/500 + 7/1000) ∧
    max (1/10 : ℚ) (471/500 - 35/1000) ≤ newLossCalc (471/500) (1/2) ∧
    newLossCalc (471/500) (1/2) ≤ max (1/10 : ℚ) (471/500 + 15/1000) :=
  tick_walk_biased_clamped (471/500) (1/2) (by norm_num) (by norm_num)

/-- C6 counterexample: after 1000 appends to the seed accuracy buffer
(length 8) the buffer length is 1008, not the claimed retention cap of
1000 — no FIFO eviction happens. -/
theorem retention_cap_not_enforced :
    ¬ ((runAccuracy otolithAccuracy
        (List.replicate 1000 (1/2))).length = 1000) := by
  obtain ⟨ys, h1, h2, _⟩ :=
    runAccuracy_eq_append (List.replicate 1000 (1/2)) otolithAccuracy
  rw [h1, List.length_append, h2, List.length_replicate]
  have h8 : otolithAccuracy.length = 8 := rfl
  rw [h8]
  omega

/-- C6 amended: the training-metric buffers have no retention cap — k
appends grow a buffer of length n to length n + k, and the original
samples all stay in place (nothing is ever evicted). -/
theorem metric_buffers_unbounded (xs rs : List ℚ) :
    (runAccuracy xs rs).length = xs.length + rs.length ∧
    (runAccuracy xs rs).take xs.length = xs ∧
    (runLoss xs rs).length = xs.length + rs.length ∧
    (runLoss xs rs).take xs.length = xs := by
  obtain ⟨ys, h1, h2, _⟩ := runAccuracy_eq_append rs xs
  obtain ⟨zs, g1, g2, _⟩ := runLoss_eq_append rs xs
  rw [h1, g1]
  simp [h2, g2]

/-- C10: the appended metrics are clamped — every per-step accuracy is
at most 0.98 and every per-step loss at least 0.1, whatever the base
value and random draw; consequently, after any number of simulated
epochs every entry appended beyond the seed respects these bounds. -/
theorem appended_metrics_clamped :
    (∀ base r : ℚ,
      newAccuracyCalc base r ≤ 98/100 ∧ 1/10 ≤ newLossCalc base r) ∧
    (∀ xs rs : List ℚ,
      ∀ y ∈ (runAccuracy xs rs).drop xs.length, y ≤ 98/100) ∧
    (∀ xs rs : List ℚ,
      ∀ y ∈ (runLoss xs rs).drop xs.length, 1/10 ≤ y) := by
  refine ⟨fun base r => ⟨min_le_left _ _, le_max_left _ _⟩, ?_, ?_⟩
  · intro xs rs y hy
    obtain ⟨ys, h1, h2, h3⟩ := runAccuracy_eq_append rs xs
    rw [h1, List.drop_left] at hy
    exact h3 y hy
  · intro xs rs y hy
    obtain ⟨zs, g1, g2, g3⟩ := runLoss_eq_append rs xs
    rw [g1, List.drop_left] at hy
    exact g3 y hy

/-- Witness for C10 on one concrete appended sample of each buffer. -/
theorem appended_metrics_clamped_witness :
    (118/125 : ℚ) ≤ 98/100 ∧ (1/10 : ℚ) ≤ 31/100 :=
  ⟨appended_metrics_clamped.2.1 otolithAccuracy [1/2] (118/125)
      (by norm_num [runAccuracy, otolithAccuracy, newAccuracyCalc, min_def]),
    appended_metrics_clamped.2.2 otolithLoss [1/2] (31/100)
      (by norm_num [runLoss, otolithLoss, newLossCalc, max_def])⟩

/-- Data sample of `OceanographicModule` (src/DEPLOYMENT.md): the
objects pushed onto `historicalData[param]`, with fields `timestamp`,
observed `value` and companion `predicted`. -/
structure Sample where
  timestamp : ℚ
  value : ℚ
  predicted : ℚ
deriving Repr, DecidableEq

/-- JavaScript `Array.prototype.slice(begin)` with a single, possibly
negative, begin index: a negative index counts from the end of the
array, clamped at 0 (`Int.toNat` performs the clamping). -/
def jsSliceFrom {α : Type} (l : List α) (i : ℤ) : List α :=
  if i < 0 then l.drop ((l.length : ℤ) + i).toNat else l.drop i.toNat

/-- The historical/forecast split of
`OceanographicModule.createForecastChart` (src/DEPLOYMENT.md):
`splitPoint = Math.floor(data.length * 0.7)`,
`historical = data.slice(0, splitPoint)` and
`forecast = data.slice(splitPoint - 1)` (commented "Overlap by 1
point"); the one-argument slice wraps a negative index to the end of
the array. -/
def partition (data : List Sample) : List Sample × List Sample :=
  let splitPoint := (⌊(data.length : ℚ) * (7/10)⌋).toNat
  (data.take splitPoint, jsSliceFrom data ((splitPoint : ℤ) - 1))

/-- Arithmetic of the split point: the rational floor agrees with
natural-number division. -/
lemma splitIndex_seven_tenths (n : ℕ) :
    (⌊(n : ℚ) * (7/10)⌋).toNat = 7 * n / 10 := by
  have hq : (n : ℚ) * (7/10) =
      (((7 * n : ℕ) : ℤ) : ℚ) / (((10 : ℕ) : ℤ) : ℚ) := by
    push_cast; ring
  rw [hq]
  rw [show (((10 : ℕ) : ℤ) : ℚ) = ((10 : ℕ) : ℚ) by push_cast; ring]
  rw [Rat.floor_intCast_div_natCast]
  omega

/-- Computation rule for `partition` with the split point expressed in
natural-number arithmetic. -/
lemma partition_eq (s : List Sample) :
    partition s =
      (s.take (7 * s.length / 10),
        jsSliceFrom s (((7 * s.length / 10 : ℕ) : ℤ) - 1)) := by
  simp only [partition, splitIndex_seven_tenths]

/-- C7 counterexample: on a one-sample snapshot `splitPoint` is 0 and
the code computes `data.slice(-1)`, which wraps to the end of the
array — the historical side is empty and the forecast side holds the
single sample, the opposite of the claimed length-1 behaviour. -/
theorem partition_length_one_swapped :
    (partition [⟨0, 1, 2⟩]).1 = ([] : List Sample) ∧
    (partition [⟨0, 1, 2⟩]).2 = [(⟨0, 1, 2⟩ : Sample)] := by
  rw [partition_eq]
  exact ⟨by decide, by decide⟩

/-- C7 amended: the historical and forecast outputs of `partition`
overlap by exactly one sample whenever the snapshot has at least two
samples (their lengths sum to length + 1 and the last historical sample
is the first forecast sample, which exists); an empty snapshot yields
two empty outputs; a one-sample snapshot yields an empty historical
side and the single sample on the forecast side (the code's
`slice(-1)` wraps to the end of the array). -/
theorem partition_overlap (s : List Sample) :
    (s.length = 0 → partition s = ([], [])) ∧
    (s.length = 1 → (partition s).1 = [] ∧ (partition s).2 = s) ∧
    (2 ≤ s.length →
      (partition s).1.length + (partition s).2.length = s.length + 1 ∧
      (partition s).1.getLast? = (partition s).2.head? ∧
      (partition s).1.getLast? ≠ none) := by
  refine ⟨?_, ?_, ?_⟩
  · intro h0
    have : s = [] := List.length_eq_zero.mp h0
    subst this
    rw [partition_eq]
    decide
  · intro h1
    obtain ⟨a, rfl⟩ := List.length_eq_one.mp h1
    rw [partition_eq]
    have hsp : 7 * [a].length / 10 = 0 := by simp
    rw [hsp]
    unfold jsSliceFrom
    norm_num
  · intro h2
    rw [partition_eq]
    unfold jsSliceFrom
    have hlo : 1 ≤ 7 * s.length / 10 := by omega
    have hhi : 7 * s.length / 10 < s.length := by omega
    have hnneg : ¬ (((7 * s.length / 10 : ℕ) : ℤ) - 1 < 0) := by omega
    rw [if_neg hnneg]
    have htn : (((7 * s.length / 10 : ℕ) : ℤ) - 1).toNat =
        7 * s.length / 10 - 1 := by
      omega
    rw [htn]
    refine ⟨?_, ?_, ?_⟩
    · rw [List.length_take, List.length_drop]
      omega
    · rw [List.getLast?_eq_getElem?, List.head?_eq_getElem?]
      rw [List.getElem?_take, List.getElem?_drop]
      rw [List.length_take]
      have hmin : min (7 * s.length / 10) s.length = 7 * s.length / 10 := by
        omega
      rw [hmin]
      rw [if_pos (by omega)]
      simp
    · rw [List.getLast?_eq_getElem?, List.length_take]
      have hmin : min (7 * s.length / 10) s.length = 7 * s.length / 10 := by
        omega
      rw [hmin, List.getElem?_take, if_pos (by omega)]
      have hin : 7 * s.length / 10 - 1 < s.length := by omega
      simp [List.getElem?_eq_getElem hin]

/-- Witness for C7 on a concrete three-sample snapshot. -/
theorem partition_overlap_witness :
    (partition [⟨0, 1, 2⟩, ⟨1, 3, 4⟩, ⟨2, 5, 6⟩]).1.length +
        (partition [⟨0, 1, 2⟩, ⟨1, 3, 4⟩, ⟨2, 5, 6⟩]).2.length =
      ([⟨0, 1, 2⟩, ⟨1, 3, 4⟩, ⟨2, 5, 6⟩] : List Sample).length + 1 ∧
    (partition [⟨0, 1, 2⟩, ⟨1, 3, 4⟩, ⟨2, 5, 6⟩]).1.getLast? =
      (partition [⟨0, 1, 2⟩, ⟨1, 3, 4⟩, ⟨2, 5, 6⟩]).2.head? ∧
    (partition [⟨0, 1, 2⟩, ⟨1, 3, 4⟩, ⟨2, 5, 6⟩]).1.getLast? ≠ none :=
  (partition_overlap [⟨0, 1, 2⟩, ⟨1, 3, 4⟩, ⟨2, 5, 6⟩]).2.2 (by simp)

/-- The dashboard summary-stats tuple consumed by
`updateKPIsWithData`. -/
structure DashboardStats where
  totalSpecies : Nat
  aiModels : Nat
  monitoringStations : Nat
  predictionsToday : Nat
deriving Repr, DecidableEq

/-- The fixed local fallback tuple of `updateKPIsWithMockData`. -/
def mockStats : DashboardStats :=
  { totalSpecies := 5247
    aiModels := 8
    monitoringStations := 15
    predictionsToday := 1847 }

/-- Outcome of the external stats fetch: `none` models a thrown network
error, `some (ok, data)` a response together with its HTTP `ok` flag. -/
abbrev FetchResult := Option (Bool × DashboardStats)

/-- Does the fetch count as a failure (unreachable source or non-OK
response)? -/
def fetchFailed : FetchResult → Bool
  | some (true, _) => false
  | some (false, _) => true
  | none => true

/-- Method `updateDashboardKPIs` of `BluePulseApp`: uses the response
data when the fetch succeeded with an OK response; substitutes the mock
tuple when the response is non-OK or the fetch threw. -/
def updateDashboardKPIs : FetchResult → DashboardStats
  | some (true, d) => d
  | some (false, _) => mockStats
  | none => mockStats

/-- Rendering outcome of `loadInitialData`: the KPI tuple that gets
displayed and whether the loading overlay was hidden again (rendering
proceeded). -/
structure LoadOutcome where
  stats : DashboardStats
  loadingHidden : Bool
deriving Repr, DecidableEq

/-- Method `loadInitialData` of `BluePulseApp`: shows the overlay,
updates the KPIs (with the internal fallback of
`updateDashboardKPIs`), and hides the overlay on both the success and
the error path (the catch branch also hides it). -/
def loadInitialData (r : FetchResult) : LoadOutcome :=
  { stats := updateDashboardKPIs r, loadingHidden := true }

/-- C8: when the external stats source fails (unreachable or a non-OK
response) the fixed fallback tuple {5247, 8, 15, 1847} is substituted
and initialization still completes — the loading overlay is hidden and
rendering is never blocked. -/
theorem fallback_stats_on_failure (r : FetchResult)
    (h : fetchFailed r = true) :
    updateDashboardKPIs r = mockStats ∧
    (loadInitialData r).stats = mockStats ∧
    (loadInitialData r).loadingHidden = true := by
  match r with
  | none => exact ⟨rfl, rfl, rfl⟩
  | some (false, d) => exact ⟨rfl, rfl, rfl⟩
  | some (true, d) => exact absurd h (by simp [fetchFailed])

/-- Witness for C8 at the concrete unreachable-source outcome. -/
theorem fallback_stats_on_failure_witness :
    updateDashboardKPIs none = mockStats ∧
    (loadInitialData none).stats = mockStats ∧
    (loadInitialData none).loadingHidden = true :=
  fallback_stats_on_failure none rfl

end BluePulse
